import Mathlib

/-!
Verification of `arg_llong.c` (argtable3 long long option type)

A shallow embedding of the `arg_llong` option-type plugin: its state
(`struct arg_llong` together with the relevant `arg_hdr` fields), the four
lifecycle hooks `arg_llong_resetfn`, `arg_llong_scanfn`, `arg_llong_checkfn`
(the error renderer `arg_llong_errorfn` only formats text and is not needed
by any property below), and the constructors `arg_llong0`, `arg_llong1`,
`arg_llongn`.

C strings are modelled as `List Char` (NUL-terminated in C, so reading one
position past the digits yields the NUL character `'\x00'`); `long long`
values are modelled as `Int` with the bounds `LLONG_MAX` / `LLONG_MIN` made
explicit; error codes are `Nat`.
-/

/-- Constant `LLONG_MAX` from `<limits.h>`: the largest signed 64-bit value. -/
def LLONG_MAX : Int := 2 ^ 63 - 1

/-- Constant `LLONG_MIN` from `<limits.h>`: the smallest signed 64-bit value. -/
def LLONG_MIN : Int := -(2 ^ 63)

/-- Modelled from the spec: the framework's error taxonomy
(`argtable3.h` is not part of the sources given).  `TooFewOccurrences`;
the concrete numeric values are irrelevant to every claim, only their
distinctness and being nonzero matter. -/
def ARG_ERR_MINCOUNT : Nat := 1

/-- Modelled from the spec: `ExcessOccurrences`. -/
def ARG_ERR_MAXCOUNT : Nat := 2

/-- Modelled from the spec: `InvalidInteger`. -/
def ARG_ERR_BADINT : Nat := 3

/-- Modelled from the spec: `IntegerOverflow`. -/
def ARG_ERR_OVERFLOW : Nat := 4

/-- The NUL terminator of a C string. -/
def NUL : Char := Char.ofNat 0

/-- The character found at offset `n` of the C string `s`: the NUL
terminator when `n` is past the end (models dereferencing the `end`
pointer of `strtoll`). -/
def charAt (s : List Char) (n : Nat) : Char := s.getD n NUL

/-- Numeric value of a digit character, as the C helpers read digits:
`0`-`9`, then letters (either case) from 10 up; 99 for a non-digit, so the
test `digitVal c < base` recognises exactly the digits of `base`. -/
def digitVal (c : Char) : Nat :=
  if '0' ≤ c ∧ c ≤ '9' then c.toNat - '0'.toNat
  else if 'a' ≤ c ∧ c ≤ 'z' then c.toNat - 'a'.toNat + 10
  else if 'A' ≤ c ∧ c ≤ 'Z' then c.toNat - 'A'.toNat + 10
  else 99

/-- Read the longest leading run of digits of `base` from `s`, returning
the denoted magnitude and how many characters were read (0 when `s` does
not start with a digit of `base`). -/
def parseDigits (base : Nat) : List Char → Nat × Nat
  | [] => (0, 0)
  | c :: rest =>
    if digitVal c < base then
      let r := parseDigits base rest
      (digitVal c * base ^ r.2 + r.1, r.2 + 1)
    else (0, 0)

/-- C `isspace` in the default locale, as `strtoll` uses to skip leading
whitespace. -/
def isSpaceC (c : Char) : Bool :=
  c = ' ' ∨ c = '\t' ∨ c = '\n' ∨ c = Char.ofNat 11 ∨ c = Char.ofNat 12 ∨ c = '\r'

/-- Modelled from the spec: the repository's `strtoll0X` helper (declared
in `argtable3_private.h`, whose definition is not among the sources given).
Per §4.3 of the spec it recognises a literal with an explicit radix prefix:
an optional sign (`+`/`-`, permitted before the prefix), the character `0`,
the radix marker matched case-insensitively (`x`, `o` or `b`), then one or
more digits of `base`; it reports the signed value denoted and how many
characters it consumed, with 0 characters consumed meaning the grammar did
not match. -/
def strtoll0X (s : List Char) (marker : Char) (base : Nat) : Int × Nat :=
  let signed : Int × List Char × Nat :=
    match s with
    | '+' :: r => (1, r, 1)
    | '-' :: r => (-1, r, 1)
    | r => (1, r, 0)
  match signed.2.1 with
  | '0' :: m :: ds =>
    if m.toUpper = marker then
      let r := parseDigits base ds
      if r.2 = 0 then (0, 0)
      else (signed.1 * (r.1 : Int), signed.2.2 + 2 + r.2)
    else (0, 0)
  | _ => (0, 0)

/-- C99 `strtoll` with base 10: skip leading whitespace, read an optional
sign and then decimal digits; the consumed count locates the final `end`
pointer (0 when no digits were read, in which case `end == nptr`); on
overflow the result is clamped to `LLONG_MAX` / `LLONG_MIN` (the C
function also sets `errno`, which `arg_llong_scanfn` never inspects). -/
def strtoll (s : List Char) : Int × Nat :=
  let ws := (s.takeWhile isSpaceC).length
  let body := s.drop ws
  let signed : Int × List Char × Nat :=
    match body with
    | '+' :: r => (1, r, 1)
    | '-' :: r => (-1, r, 1)
    | r => (1, r, 0)
  let r := parseDigits 10 signed.2.1
  if r.2 = 0 then (0, 0)
  else
    let v : Int := signed.1 * (r.1 : Int)
    let clamped : Int := if v > LLONG_MAX then LLONG_MAX else if v < LLONG_MIN then LLONG_MIN else v
    (clamped, ws + signed.2.2 + r.2)

/-- The state of one `struct arg_llong` (with the `arg_hdr` fields the
hooks read): flag strings and glossary are `Option String` because the C
pointers may be NULL; `ival` is the trailing `long long` array of capacity
`hdr.maxcount`; `count` is the number of occurrences accepted so far. -/
structure ArgLlong where
  shortopts : Option String
  longopts : Option String
  datatype : String
  glossary : Option String
  mincount : Nat
  maxcount : Nat
  ival : List Int
  count : Nat
deriving DecidableEq, Repr

/-- Hook `arg_llong_resetfn`: sets `parent->count = 0`. -/
def arg_llong_resetfn (parent : ArgLlong) : ArgLlong :=
  { parent with count := 0 }

/-- Statement `parent->ival[parent->count++] = val`: store a converted value at the
next slot. -/
def storeVal (parent : ArgLlong) (val : Int) : ArgLlong :=
  { parent with ival := parent.ival.set parent.count val, count := parent.count + 1 }

/-- Hook `arg_llong_scanfn`: the core scanning hook, returning the error code
and the updated state.  Mirrors the C control flow: the max-count guard;
the null-token branch that only counts; the hex → octal → binary → decimal
conversion cascade, each re-reading from the start of `argval` and a later
grammar tried only when the earlier one consumed nothing (`end == argval`);
the whole-token check (`*end != '\0'`); the overflow guard; the store. -/
def arg_llong_scanfn (parent : ArgLlong) (argval : Option (List Char)) : Nat × ArgLlong :=
  if parent.count = parent.maxcount then
    (ARG_ERR_MAXCOUNT, parent)
  else
    match argval with
    | none => (0, { parent with count := parent.count + 1 })
    | some s =>
      let r := strtoll0X s 'X' 16
      let r := if r.2 = 0 then strtoll0X s 'O' 8 else r
      let r := if r.2 = 0 then strtoll0X s 'B' 2 else r
      let r := if r.2 = 0 then strtoll s else r
      if r.2 = 0 then (ARG_ERR_BADINT, parent)
      else if charAt s r.2 ≠ NUL then (ARG_ERR_BADINT, parent)
      else if r.1 > LLONG_MAX ∨ r.1 < LLONG_MIN then (ARG_ERR_OVERFLOW, parent)
      else (0, storeVal parent r.1)

/-- Hook `arg_llong_checkfn`: fails with `ARG_ERR_MINCOUNT` exactly when
`parent->count < parent->hdr.mincount`; a pure reader of the state. -/
def arg_llong_checkfn (parent : ArgLlong) : Nat :=
  if parent.count < parent.mincount then ARG_ERR_MINCOUNT else 0

/-- Constructor `arg_llongn`: the general constructor.  Clamps `maxcount` up to
`mincount`, defaults the datatype label to `"<int>"` when NULL, sets
`count = 0` and allocates the `ival[maxcount]` array (uninitialised in C —
modelled as zeros; no claim depends on the initial contents). -/
def arg_llongn (shortopts longopts : Option String) (datatype : Option String)
    (mincount maxcount : Nat) (glossary : Option String) : ArgLlong :=
  let maxcount := if maxcount < mincount then mincount else maxcount
  { shortopts := shortopts
    longopts := longopts
    datatype := datatype.getD ("<int>")
    glossary := glossary
    mincount := mincount
    maxcount := maxcount
    ival := List.replicate maxcount 0
    count := 0 }

/-- Constructor `arg_llong0`: convenience constructor, `mincount = 0`, `maxcount = 1`. -/
def arg_llong0 (shortopts longopts : Option String) (datatype : Option String)
    (glossary : Option String) : ArgLlong :=
  arg_llongn shortopts longopts datatype 0 1 glossary

/-- Constructor `arg_llong1`: convenience constructor, `mincount = 1`, `maxcount = 1`. -/
def arg_llong1 (shortopts longopts : Option String) (datatype : Option String)
    (glossary : Option String) : ArgLlong :=
  arg_llongn shortopts longopts datatype 1 1 glossary

/-- Spec-side view of §4.3 step 3: the list of results of the four literal
grammars — hex, octal, binary, then plain decimal — each applied to the
full token text. -/
def grammarResults (s : List Char) : List (Int × Nat) :=
  [strtoll0X s 'X' 16, strtoll0X s 'O' 8, strtoll0X s 'B' 2, strtoll s]

/-- The first result in the list that consumed at least one character,
`none` when every attempt consumed nothing. -/
def firstConsuming : List (Int × Nat) → Option (Int × Nat)
  | [] => none
  | r :: rest => if r.2 ≠ 0 then some r else firstConsuming rest

/-- Spec-side view of §4.3 step 3, worded as the spec does: try the four
grammars in strict order, each restarting from the start of the token; the
first one that consumes at least one character determines the parsed value
and the consumed count; `none` when no grammar consumes any character. -/
def firstGrammar (s : List Char) : Option (Int × Nat) :=
  firstConsuming (grammarResults s)

/-- What `arg_llong_scanfn` does after the conversion cascade has produced
the value `v` having consumed `n` characters: the whole-token check, the
overflow guard, the store (§4.3 steps 4-6). -/
def scanParsed (parent : ArgLlong) (s : List Char) (v : Int) (n : Nat) : Nat × ArgLlong :=
  if charAt s n ≠ NUL then (ARG_ERR_BADINT, parent)
  else if v > LLONG_MAX ∨ v < LLONG_MIN then (ARG_ERR_OVERFLOW, parent)
  else (0, storeVal parent v)

/-- Decomposition of `arg_llong_scanfn` on a non-null token below the
occurrence cap: the conversion cascade of the C code is exactly the
first-consuming-grammar rule, and the rest of the function is
`scanParsed`. -/
theorem scan_some_eq (parent : ArgLlong) (s : List Char)
    (h : parent.count ≠ parent.maxcount) :
    arg_llong_scanfn parent (some s) =
      match firstGrammar s with
      | none => (ARG_ERR_BADINT, parent)
      | some r => scanParsed parent s r.1 r.2 := by
  unfold arg_llong_scanfn firstGrammar grammarResults scanParsed
  rw [if_neg h]
  by_cases h1 : (strtoll0X s 'X' 16).2 = 0 <;>
    by_cases h2 : (strtoll0X s 'O' 8).2 = 0 <;>
      by_cases h3 : (strtoll0X s 'B' 2).2 = 0 <;>
        by_cases h4 : (strtoll s).2 = 0 <;>
          simp [h1, h2, h3, h4, firstConsuming, scanParsed]

/-- The max-count guard of `arg_llong_scanfn`, isolated: at the cap the
scan returns `ARG_ERR_MAXCOUNT` with the state untouched. -/
theorem scan_maxcount_eq (parent : ArgLlong) (argval : Option (List Char))
    (h : parent.count = parent.maxcount) :
    arg_llong_scanfn parent argval = (ARG_ERR_MAXCOUNT, parent) := by
  unfold arg_llong_scanfn
  rw [if_pos h]

/-- The null-token branch of `arg_llong_scanfn`, isolated: below the cap a
null token only increments `count`. -/
theorem scan_none_eq (parent : ArgLlong) (h : parent.count ≠ parent.maxcount) :
    arg_llong_scanfn parent none = (0, { parent with count := parent.count + 1 }) := by
  unfold arg_llong_scanfn
  rw [if_neg h]

/-- A sample optional option (`mincount 0`, `maxcount 1`), used to
instantiate witnesses. -/
def base1 : ArgLlong := arg_llongn (some ("-n")) (some ("number")) none 0 1 none

/-- A sample required option (`mincount 1`, `maxcount 1`). -/
def req1 : ArgLlong := arg_llongn (some ("-n")) (some ("number")) none 1 1 none

/-- State `base1` after one accepted occurrence: its single slot is in use. -/
def full1 : ArgLlong := { base1 with ival := [26], count := 1 }

/-- C5: when `count == maxcount`, `arg_llong_scanfn` fails with
`ARG_ERR_MAXCOUNT` for every token — valid, invalid or null — examining
nothing else and leaving the state untouched. -/
theorem scan_at_maxcount_fails (parent : ArgLlong) (argval : Option (List Char))
    (h : parent.count = parent.maxcount) :
    arg_llong_scanfn parent argval = (ARG_ERR_MAXCOUNT, parent) :=
  scan_maxcount_eq parent argval h

/-- Witness for C5 at a concrete saturated state and an invalid token. -/
theorem scan_at_maxcount_fails_witness :
    full1.count = full1.maxcount ∧
      arg_llong_scanfn full1 (some ('z' :: [])) = (ARG_ERR_MAXCOUNT, full1) :=
  ⟨by decide, scan_at_maxcount_fails full1 (some ('z' :: [])) (by decide)⟩

/-- C6: when `count < maxcount` and the token is the null sentinel,
`arg_llong_scanfn` succeeds, increments `count` and leaves `ival`
untouched — no conversion is attempted. -/
theorem scan_null_counts_only (parent : ArgLlong) (h : parent.count < parent.maxcount) :
    arg_llong_scanfn parent none = (0, { parent with count := parent.count + 1 }) ∧
      (arg_llong_scanfn parent none).2.ival = parent.ival := by
  rw [scan_none_eq parent (Nat.ne_of_lt h)]
  exact ⟨rfl, rfl⟩

/-- Witness for C6 at the concrete fresh state `base1`. -/
theorem scan_null_counts_only_witness :
    base1.count < base1.maxcount ∧
      (arg_llong_scanfn base1 none = (0, { base1 with count := base1.count + 1 }) ∧
        (arg_llong_scanfn base1 none).2.ival = base1.ival) :=
  ⟨by decide, scan_null_counts_only base1 (by decide)⟩

/-- C8: `arg_llong_checkfn` fails with `ARG_ERR_MINCOUNT` iff
`count < mincount` and succeeds otherwise (it takes the state by value and
returns only a code, so it mutates nothing); right after
`arg_llong_resetfn`, any positive `mincount` makes it fail. -/
theorem checkfn_iff (parent : ArgLlong) :
    (arg_llong_checkfn parent = ARG_ERR_MINCOUNT ↔ parent.count < parent.mincount) ∧
      (arg_llong_checkfn parent = 0 ↔ ¬parent.count < parent.mincount) ∧
      (0 < parent.mincount →
        arg_llong_checkfn (arg_llong_resetfn parent) = ARG_ERR_MINCOUNT) := by
  by_cases hc : parent.count < parent.mincount <;>
    simp [arg_llong_checkfn, arg_llong_resetfn, ARG_ERR_MINCOUNT, hc] <;> omega

/-- Witness for C8: after `reset` of the concrete required option `req1`,
`check` fails with `ARG_ERR_MINCOUNT`. -/
theorem checkfn_iff_witness :
    0 < req1.mincount ∧
      arg_llong_checkfn (arg_llong_resetfn req1) = ARG_ERR_MINCOUNT :=
  ⟨by decide, (checkfn_iff req1).2.2 (by decide)⟩

/-- C9: `arg_llongn` always constructs; the effective `maxcount` is the
requested one clamped up to `mincount`, `count` starts at 0, and the
datatype label defaults to `"<int>"` exactly when none is supplied. -/
theorem arg_llongn_clamps (so lo dt : Option String) (mn mx : Nat) (gl : Option String) :
    (arg_llongn so lo dt mn mx gl).maxcount = max mn mx ∧
      (arg_llongn so lo dt mn mx gl).count = 0 ∧
      (arg_llongn so lo none mn mx gl).datatype = "<int>" ∧
      (∀ d : String, (arg_llongn so lo (some d) mn mx gl).datatype = d) := by
  refine ⟨?_, rfl, rfl, fun d => rfl⟩
  show (if mx < mn then mn else mx) = max mn mx
  split <;> omega

/-- C10: whenever `arg_llong_scanfn` returns a nonzero error code, the
state comes back unchanged: `count` keeps its value and `ival` is not
written. -/
theorem scan_error_frame (parent : ArgLlong) (argval : Option (List Char))
    (e : Nat) (st' : ArgLlong)
    (h : arg_llong_scanfn parent argval = (e, st')) (he : e ≠ 0) : st' = parent := by
  by_cases hm : parent.count = parent.maxcount
  · rw [scan_maxcount_eq parent argval hm] at h
    injection h with h1 h2
    exact h2.symm
  · cases argval with
    | none =>
      rw [scan_none_eq parent hm] at h
      injection h with h1 h2
      exact absurd h1.symm he
    | some s =>
      rw [scan_some_eq parent s hm] at h
      unfold scanParsed at h
      split at h
      · injection h with h1 h2
        exact h2.symm
      · split at h
        · injection h with h1 h2
          exact h2.symm
        · split at h
          · injection h with h1 h2
            exact h2.symm
          · injection h with h1 h2
            exact absurd h1.symm he

/-- Witness for C10 at a concrete invalid token. -/
theorem scan_error_frame_witness :
    (arg_llong_scanfn base1 (some ('x' :: [])) = (ARG_ERR_BADINT, base1) ∧
        ARG_ERR_BADINT ≠ 0) ∧
      base1 = base1 :=
  ⟨⟨by decide, by decide⟩,
    scan_error_frame base1 (some ('x' :: [])) ARG_ERR_BADINT base1 (by decide) (by decide)⟩

/-- Success tail of the scan, isolated: when the winning grammar produced
`v` consuming `n` characters, the whole token was consumed and `v` is in
range, the scan stores `v` at the next slot. -/
theorem scan_some_value (parent : ArgLlong) (s : List Char) (v : Int) (n : Nat)
    (h : parent.count ≠ parent.maxcount) (hg : firstGrammar s = some (v, n))
    (ht : charAt s n = NUL) (hv : ¬(v > LLONG_MAX ∨ v < LLONG_MIN)) :
    arg_llong_scanfn parent (some s) = (0, storeVal parent v) := by
  rw [scan_some_eq parent s h, hg]
  show scanParsed parent s v n = (0, storeVal parent v)
  unfold scanParsed
  rw [if_neg (by simp [ht]), if_neg hv]

/-- C2: below the occurrence cap, the scan of a non-null token is exactly
the ordered four-grammar trial of the spec: hex, octal, binary, decimal,
each rescanning from the start of the token; the first grammar that
consumes at least one character supplies the value and consumed count for
the rest of the scan, and when no grammar consumes anything the scan fails
with `ARG_ERR_BADINT` leaving the state untouched. -/
theorem scan_grammar_order (parent : ArgLlong) (s : List Char)
    (h : parent.count ≠ parent.maxcount) :
    (firstGrammar s = none → arg_llong_scanfn parent (some s) = (ARG_ERR_BADINT, parent)) ∧
      (∀ v n, firstGrammar s = some (v, n) →
        arg_llong_scanfn parent (some s) = scanParsed parent s v n) := by
  rw [scan_some_eq parent s h]
  constructor
  · intro hg
    rw [hg]
  · intro v n hg
    rw [hg]

/-- Witness for C2: on the concrete token `26` the decimal grammar wins
(the three prefixed grammars consume nothing) and the scan proceeds with
value 26 and 2 characters consumed. -/
theorem scan_grammar_order_witness :
    (base1.count ≠ base1.maxcount ∧ firstGrammar ('2' :: '6' :: []) = some (26, 2)) ∧
      arg_llong_scanfn base1 (some ('2' :: '6' :: [])) =
        scanParsed base1 ('2' :: '6' :: []) 26 2 :=
  ⟨⟨by decide, by decide⟩,
    (scan_grammar_order base1 ('2' :: '6' :: []) (by decide)).2 26 2 (by decide)⟩

/-- C3: below the occurrence cap, when the winning grammar consumed `n`
characters but the token has trailing unconsumed characters (`n` is short
of the token's length, the token being a NUL-free C string), the scan
fails with `ARG_ERR_BADINT` and the state — `count` and every stored
value — is untouched. -/
theorem scan_trailing_fails (parent : ArgLlong) (s : List Char) (v : Int) (n : Nat)
    (h : parent.count ≠ parent.maxcount) (hg : firstGrammar s = some (v, n))
    (hlen : n < s.length) (hnul : NUL ∉ s) :
    arg_llong_scanfn parent (some s) = (ARG_ERR_BADINT, parent) := by
  have ht : charAt s n ≠ NUL := by
    unfold charAt
    rw [List.getD_eq_getElem s NUL hlen]
    intro hc
    exact hnul (hc ▸ List.getElem_mem hlen)
  rw [scan_some_eq parent s h, hg]
  show scanParsed parent s v n = (ARG_ERR_BADINT, parent)
  unfold scanParsed
  rw [if_pos ht]

/-- Witness for C3 at the spec's own example `1.5`: the decimal grammar
consumes only the leading `1`. -/
theorem scan_trailing_fails_witness :
    (base1.count ≠ base1.maxcount ∧ firstGrammar ('1' :: '.' :: '5' :: []) = some (1, 1) ∧
        1 < ('1' :: '.' :: '5' :: []).length ∧ NUL ∉ ('1' :: '.' :: '5' :: [])) ∧
      arg_llong_scanfn base1 (some ('1' :: '.' :: '5' :: [])) = (ARG_ERR_BADINT, base1) :=
  ⟨⟨by decide, by decide, by decide, by decide⟩,
    scan_trailing_fails base1 ('1' :: '.' :: '5' :: []) 1 1 (by decide) (by decide)
      (by decide) (by decide)⟩

/-- C4: below the occurrence cap, the tokens `0x1A`, `0o32`, `0b11010`
and `26` all succeed and store the same value 26, and a sign character is
permitted before each radix prefix (`+0x1A` and `+0b11010` store 26,
`-0o32` stores -26). -/
theorem scan_radix_26 (parent : ArgLlong) (h : parent.count < parent.maxcount) :
    arg_llong_scanfn parent (some ('0' :: 'x' :: '1' :: 'A' :: [])) = (0, storeVal parent 26) ∧
      arg_llong_scanfn parent (some ('0' :: 'o' :: '3' :: '2' :: [])) = (0, storeVal parent 26) ∧
      arg_llong_scanfn parent (some ('0' :: 'b' :: '1' :: '1' :: '0' :: '1' :: '0' :: [])) =
        (0, storeVal parent 26) ∧
      arg_llong_scanfn parent (some ('2' :: '6' :: [])) = (0, storeVal parent 26) ∧
      arg_llong_scanfn parent (some ('+' :: '0' :: 'x' :: '1' :: 'A' :: [])) =
        (0, storeVal parent 26) ∧
      arg_llong_scanfn parent (some ('-' :: '0' :: 'o' :: '3' :: '2' :: [])) =
        (0, storeVal parent (-26)) ∧
      arg_llong_scanfn parent (some ('+' :: '0' :: 'b' :: '1' :: '1' :: '0' :: '1' :: '0' :: [])) =
        (0, storeVal parent 26) := by
  have hne : parent.count ≠ parent.maxcount := Nat.ne_of_lt h
  refine ⟨?_, ?_, ?_, ?_, ?_, ?_, ?_⟩
  · exact scan_some_value parent _ 26 4 hne (by decide) (by decide) (by decide)
  · exact scan_some_value parent _ 26 4 hne (by decide) (by decide) (by decide)
  · exact scan_some_value parent _ 26 7 hne (by decide) (by decide) (by decide)
  · exact scan_some_value parent _ 26 2 hne (by decide) (by decide) (by decide)
  · exact scan_some_value parent _ 26 5 hne (by decide) (by decide) (by decide)
  · exact scan_some_value parent _ (-26) 5 hne (by decide) (by decide) (by decide)
  · exact scan_some_value parent _ 26 8 hne (by decide) (by decide) (by decide)

/-- Witness for C4 at the concrete fresh state `base1`. -/
theorem scan_radix_26_witness :
    base1.count < base1.maxcount ∧
      arg_llong_scanfn base1 (some ('0' :: 'x' :: '1' :: 'A' :: [])) =
        (0, storeVal base1 26) :=
  ⟨by decide, (scan_radix_26 base1 (by decide)).1⟩

/-- The decimal token denoting `2^63`, one past `LLONG_MAX`. -/
def tokPastMax : List Char :=
  ("9223372036854775808").toList

/-- The decimal token denoting `LLONG_MAX` itself. -/
def tokMax : List Char :=
  ("9223372036854775807").toList

/-- C1 (showing the code bug): the spec requires a token one past the
signed 64-bit maximum to fail with `IntegerOverflow`, but `strtoll` clamps
its result to `LLONG_MAX`, so the guard `val > LLONG_MAX || val < LLONG_MIN`
— comparing a `long long` against its own type's bounds — can never fire:
scanning `9223372036854775808` succeeds and stores `LLONG_MAX`, exactly
as scanning `9223372036854775807` does (that half of the claim holds);
more generally no state whatever makes this token report an overflow. -/
theorem scan_past_max_accepted :
    arg_llong_scanfn base1 (some tokPastMax) =
      (0, { base1 with ival := [LLONG_MAX], count := 1 }) ∧
      arg_llong_scanfn base1 (some tokMax) =
        (0, { base1 with ival := [LLONG_MAX], count := 1 }) ∧
      ∀ parent : ArgLlong,
        arg_llong_scanfn parent (some tokPastMax) = (ARG_ERR_MAXCOUNT, parent) ∨
          arg_llong_scanfn parent (some tokPastMax) = (0, storeVal parent LLONG_MAX) := by
  refine ⟨by decide, by decide, fun parent => ?_⟩
  by_cases hm : parent.count = parent.maxcount
  · exact Or.inl (scan_maxcount_eq parent _ hm)
  · exact Or.inr (scan_some_value parent _ LLONG_MAX 19 hm (by decide) (by decide) (by decide))

/-- Exhaustive shape of a below-cap scan of a non-null token: it fails
with `ARG_ERR_BADINT`, fails with `ARG_ERR_OVERFLOW` (both leaving the
state untouched), or succeeds storing some value at the next slot. -/
theorem scan_some_cases (st : ArgLlong) (s : List Char) (hm : st.count ≠ st.maxcount) :
    arg_llong_scanfn st (some s) = (ARG_ERR_BADINT, st) ∨
      arg_llong_scanfn st (some s) = (ARG_ERR_OVERFLOW, st) ∨
      ∃ v, arg_llong_scanfn st (some s) = (0, storeVal st v) := by
  rw [scan_some_eq st s hm]
  cases firstGrammar s with
  | none => exact Or.inl rfl
  | some r =>
    show scanParsed st s r.1 r.2 = (ARG_ERR_BADINT, st) ∨
      scanParsed st s r.1 r.2 = (ARG_ERR_OVERFLOW, st) ∨
      ∃ v, scanParsed st s r.1 r.2 = (0, storeVal st v)
    unfold scanParsed
    by_cases h1 : charAt s r.2 ≠ NUL
    · rw [if_pos h1]
      exact Or.inl rfl
    · rw [if_neg h1]
      by_cases h2 : r.1 > LLONG_MAX ∨ r.1 < LLONG_MIN
      · rw [if_pos h2]
        exact Or.inr (Or.inl rfl)
      · rw [if_neg h2]
        exact Or.inr (Or.inr ⟨r.1, rfl⟩)

/-- One scan call's contribution to the occurrence trace of the current
parse pass: nothing on a failed scan, a `none` entry for a counted null
token, and a `some v` entry when the scan stored `v` (read back from the
slot the scan wrote). -/
def scanTrace (st : ArgLlong) (argval : Option (List Char)) (acc : List (Option Int)) :
    List (Option Int) :=
  if (arg_llong_scanfn st argval).1 ≠ 0 then acc
  else
    match argval with
    | none => acc ++ [none]
    | some _ => acc ++ [some ((arg_llong_scanfn st argval).2.ival.getD st.count 0)]

/-- States reachable by driving a constructed option through the lifecycle
hooks, indexed by the occurrence trace since the last reset.
`arg_llong_checkfn` takes the state by value and returns only a code, so
it contributes no transition. -/
inductive Reach : ArgLlong → List (Option Int) → Prop
  | init (so lo dt : Option String) (mn mx : Nat) (gl : Option String) :
      Reach (arg_llongn so lo dt mn mx gl) []
  | reset {st acc} : Reach st acc → Reach (arg_llong_resetfn st) []
  | scan {st acc} (argval : Option (List Char)) : Reach st acc →
      Reach (arg_llong_scanfn st argval).2 (scanTrace st argval acc)

/-- C7 exactly as claimed: every reachable state keeps `count` within the
cap AND `values[0..count)` are the accepted, successfully converted
integers in the order they were scanned. -/
def C7_claimed : Prop :=
  ∀ st acc, Reach st acc →
    st.count ≤ st.maxcount ∧ st.ival.take st.count = acc.filterMap id

/-- Counterexample to C7 as stated: scanning the null sentinel once from
a fresh option increments `count` to 1 without storing anything, so
`values[0..1)` is the single untouched slot while no integer was accepted:
the two lists differ already in length. -/
theorem C7_claim_false : ¬C7_claimed := by
  intro hinv
  have h2 := @Reach.scan base1 [] none
    (Reach.init (some ("-n")) (some ("number")) none 0 1 none)
  exact absurd ((hinv _ _ h2).2) (by decide)

/-- Core inductive invariant of reachable states: `count` never exceeds
`maxcount`, the value array keeps its construction-time capacity, `count`
counts the occurrences accepted since the last reset, and every converted
integer sits in the slot of the occurrence that stored it. -/
theorem reach_invariant (st : ArgLlong) (acc : List (Option Int)) (h : Reach st acc) :
    st.count ≤ st.maxcount ∧ st.ival.length = st.maxcount ∧ st.count = acc.length ∧
      (∀ i v, acc.get? i = some (some v) → st.ival.get? i = some v) := by
  induction h with
  | init so lo dt mn mx gl => simp [arg_llongn]
  | reset hst ih =>
    obtain ⟨h1, h2, h3, h4⟩ := ih
    exact ⟨Nat.zero_le _, h2, rfl, fun i v hi => by simp at hi⟩
  | scan argval hst ih =>
    rename_i st acc
    obtain ⟨h1, h2, h3, h4⟩ := ih
    by_cases hm : st.count = st.maxcount
    · have htr : scanTrace st argval acc = acc := by
        unfold scanTrace
        rw [scan_maxcount_eq st argval hm]
        simp [ARG_ERR_MAXCOUNT]
      rw [scan_maxcount_eq st argval hm, htr]
      exact ⟨h1, h2, h3, h4⟩
    · cases argval with
      | none =>
        have htr : scanTrace st none acc = acc ++ [none] := by
          unfold scanTrace
          rw [scan_none_eq st hm]
          simp
        rw [scan_none_eq st hm, htr]
        refine ⟨?_, h2, ?_, ?_⟩
        · show st.count + 1 ≤ st.maxcount
          omega
        · show st.count + 1 = (acc ++ [none]).length
          simp [h3]
        intro i v hi
        show st.ival.get? i = some v
        rcases Nat.lt_trichotomy i acc.length with hlt | heq | hgt
        · rw [List.get?_append hlt] at hi
          exact h4 i v hi
        · rw [heq, List.get?_concat_length] at hi
          simp at hi
        · rw [List.get?_eq_none.2 (by simp; omega)] at hi
          cases hi
      | some s =>
        rcases scan_some_cases st s hm with hres | hres | ⟨v, hres⟩
        · have htr : scanTrace st (some s) acc = acc := by
            unfold scanTrace
            rw [hres]
            simp [ARG_ERR_BADINT]
          rw [hres, htr]
          exact ⟨h1, h2, h3, h4⟩
        · have htr : scanTrace st (some s) acc = acc := by
            unfold scanTrace
            rw [hres]
            simp [ARG_ERR_OVERFLOW]
          rw [hres, htr]
          exact ⟨h1, h2, h3, h4⟩
        · have hcnt : st.count < st.ival.length := by omega
          have htr : scanTrace st (some s) acc = acc ++ [some v] := by
            unfold scanTrace
            rw [hres]
            simp only [ne_eq, not_true_eq_false, if_false, decide_not]
            show acc ++ [some ((storeVal st v).ival.getD st.count 0)] = acc ++ [some v]
            have : (storeVal st v).ival.getD st.count 0 = v := by
              show (st.ival.set st.count v).getD st.count 0 = v
              rw [List.getD_eq_getElem]
              exact List.getElem_set_eq (by simpa using hcnt)
            rw [this]
          rw [hres, htr]
          refine ⟨?_, ?_, ?_, ?_⟩
          · show st.count + 1 ≤ st.maxcount
            omega
          · show (st.ival.set st.count v).length = st.maxcount
            rw [List.length_set]
            exact h2
          · show st.count + 1 = (acc ++ [some v]).length
            simp [h3]
          · intro i w hi
            show (st.ival.set st.count v).get? i = some w
            rcases Nat.lt_trichotomy i acc.length with hlt | heq | hgt
            · rw [List.get?_append hlt] at hi
              rw [List.get?_set_ne v st.ival (by omega)]
              exact h4 i w hi
            · rw [heq, List.get?_concat_length] at hi
              have hw : w = v := by
                injection hi with hi1
                injection hi1 with hi2
                exact hi2.symm
              rw [heq, ← h3, hw]
              exact List.get?_set_eq_of_lt v hcnt
            · rw [List.get?_eq_none.2 (by simp; omega)] at hi
              cases hi

/-- Lemma: `take` agrees with `filterMap id` when every traced slot is filled:
the bridge from the slot-wise invariant to the spec's original wording. -/
theorem take_filterMap_of_slots :
    ∀ (acc : List (Option Int)) (l : List Int),
      (∀ i v, acc.get? i = some (some v) → l.get? i = some v) →
      (∀ x ∈ acc, x ≠ none) →
      l.take acc.length = acc.filterMap id
  | [], l, _, _ => by simp
  | a :: acc, l, hget, hno => by
    obtain ⟨v, rfl⟩ : ∃ v, a = some v := by
      cases a with
      | none => exact absurd rfl (hno none (by simp))
      | some v => exact ⟨v, rfl⟩
    cases l with
    | nil =>
      have h0 := hget 0 v (by simp)
      simp at h0
    | cons b l =>
      have hb : b = v := by
        have h0 := hget 0 v (by simp)
        simpa using h0
      subst hb
      have ih := take_filterMap_of_slots acc l
        (fun i w hw => by
          have := hget (i + 1) w (by simpa using hw)
          simpa using this)
        (fun x hx => hno x (by simp [hx]))
      simp [List.filterMap_cons, ih]

/-- C7 amended: every reachable state satisfies
`count ≤ maxOccurrences`; `count` equals the number of occurrences
accepted since the last reset; each successfully converted integer is
stored at the slot of its occurrence while a null-sentinel occurrence
leaves its slot's previous content in place; consequently
`values[0..count)` equals the accepted integers in order whenever no
null-sentinel occurrence happened since the last reset. -/
theorem reach_invariant_amended (st : ArgLlong) (acc : List (Option Int))
    (h : Reach st acc) :
    st.count ≤ st.maxcount ∧ st.ival.length = st.maxcount ∧ st.count = acc.length ∧
      (∀ i v, acc.get? i = some (some v) → st.ival.get? i = some v) ∧
      ((∀ x ∈ acc, x ≠ none) → st.ival.take st.count = acc.filterMap id) := by
  obtain ⟨h1, h2, h3, h4⟩ := reach_invariant st acc h
  refine ⟨h1, h2, h3, h4, fun hall => ?_⟩
  rw [h3]
  exact take_filterMap_of_slots acc st.ival h4 hall

/-- Witness for C7 (amended) at the freshly constructed `base1`. -/
theorem reach_invariant_amended_witness :
    base1.count ≤ base1.maxcount ∧ base1.ival.length = base1.maxcount ∧
      base1.count = ([] : List (Option Int)).length ∧
      (∀ i v, ([] : List (Option Int)).get? i = some (some v) →
        base1.ival.get? i = some v) ∧
      ((∀ x ∈ ([] : List (Option Int)), x ≠ none) →
        base1.ival.take base1.count = ([] : List (Option Int)).filterMap id) :=
  reach_invariant_amended base1 []
    (Reach.init (some ("-n")) (some ("number")) none 0 1 none)

